import Mathlib

/-!
goprod: the authentication core

A shallow embedding of the Go sources `auth.go`, `middleware.go`, `handlers.go`
and `database.go`, followed by theorems about them.

Conventions of the embedding

* A Go `string` is a Lean `String` (a sequence of Unicode scalar values); `len`
  of a Go string is its UTF-8 byte count, `String.utf8ByteSize`.
* `int64` and `int` (64 bits wide) are `Int`, with wrap-around written out
  where the source can overflow.
* A Go result pair `(value, error)` is a structure with two `Option` fields, or
  an `Except` where the source never returns both.
* Instants are `Int` nanoseconds since the Unix epoch.
* Functions of the libraries the sources import (`net/http`, `encoding/json`,
  `database/sql`, `bcrypt`, `golang-jwt/jwt/v5`) whose result depends on
  cryptography, encoding tables or the outside world are fields of an
  environment record; their control flow is embedded where a claim depends on it.
-/

namespace Goprod

/-! ## Go string helpers (`strings`, `strconv`, `unicode`) -/

/-- Go `unicode.IsSpace`: the runes with the Unicode White_Space property. -/
def isSpace (c : Char) : Bool :=
  let n := c.toNat
  n = 0x09 || n = 0x0A || n = 0x0B || n = 0x0C || n = 0x0D || n = 0x20 ||
  n = 0x85 || n = 0xA0 || n = 0x1680 || (0x2000 ≤ n && n ≤ 0x200A) ||
  n = 0x2028 || n = 0x2029 || n = 0x202F || n = 0x205F || n = 0x3000

/-- Go `strings.TrimSpace` on the runes of a string. -/
def trimSpaceRunes (cs : List Char) : List Char :=
  ((cs.dropWhile isSpace).reverse.dropWhile isSpace).reverse

/-- Go `strings.TrimSpace`. -/
def TrimSpace (s : String) : String := ⟨trimSpaceRunes s.data⟩

/-- Go `strings.HasPrefix`. -/
def HasPrefix (s p : String) : Bool := p.data.isPrefixOf s.data

/-- Go `strings.TrimPrefix`. -/
def TrimPrefix (s p : String) : String :=
  if HasPrefix s p then ⟨s.data.drop p.data.length⟩ else s

/-- Go `strings.ToLower`, rune by rune; `lower` is `unicode.ToLower`, whose
table is a parameter. -/
def ToLower (lower : Char → Char) (s : String) : String := ⟨s.data.map lower⟩

/-- Go `len(s)` for a string: the number of bytes of its UTF-8 encoding. -/
def len (s : String) : Nat := s.utf8ByteSize

/-- Width of Go `int` on the 64-bit targets the service is built for. -/
def intSize : Nat := 64

/-- The decimal value of an ASCII digit, `none` for any other rune. -/
def digitVal (c : Char) : Option Nat :=
  if 48 ≤ c.toNat ∧ c.toNat ≤ 57 then some (c.toNat - 48) else none

/-- The digit loop of `strconv.ParseUint` in base 10: `acc * 10 + d` per digit,
`none` at the first rune that is not a digit. -/
def parseDigits : List Char → Nat → Option Nat
  | [], acc => some acc
  | c :: cs, acc =>
    match digitVal c with
    | none => none
    | some d => parseDigits cs (acc * 10 + d)

/-- Go `strconv.Atoi`: an optional sign, then at least one decimal digit; the
value must fit `int`. `none` stands for a non-nil error (syntax or range). -/
def Atoi (s : String) : Option Int :=
  match s.data with
  | [] => none
  | c :: cs =>
    let neg := c = '-'
    let ds := if c = '-' ∨ c = '+' then cs else c :: cs
    match ds with
    | [] => none
    | _ :: _ =>
      match parseDigits ds 0 with
      | none => none
      | some n =>
        let v : Int := if neg then -(n : Int) else (n : Int)
        if -(2 : Int) ^ (intSize - 1) ≤ v ∧ v < (2 : Int) ^ (intSize - 1) then some v else none

/-! ## auth.go -/

/-- Two's-complement wrap of an integer into the `int64` range. -/
def wrapInt64 (x : Int) : Int := (x + 2 ^ 63) % 2 ^ 64 - 2 ^ 63

/-- The smallest `int64`. -/
def minInt64 : Int := -(2 ^ 63)

/-- The largest `int64`. -/
def maxInt64 : Int := 2 ^ 63 - 1

/-- The `for v > 0` loop of `toStr`: `i` is the write index into `buf`, a
`[20]byte`. Each round does `i--; buf[i] = byte('0' + v%10); v /= 10`. The
result is `none` where `i--` would leave the array (a run-time panic). -/
def toStrLoop : Nat → Int → List Nat → Option (Nat × List Nat)
  | i, v, buf =>
    if 0 < v then
      match i with
      | 0 => none
      | j + 1 => toStrLoop j (v.tdiv 10) (buf.set j (((48 + v.tmod 10) % 256).toNat))
    else some (i, buf)

/-- Go `string(b)` for a byte slice that holds ASCII only. -/
def stringOfBytes (b : List Nat) : String := ⟨b.map Char.ofNat⟩

/-- The function `toStr` of auth.go, for an `int64` argument (`minInt64 ≤ v ≤ maxInt64`).
`v = -v` is `int64` negation, which wraps. `none`: run-time panic. -/
def toStr (v : Int) : Option String :=
  if v = 0 then some "0"
  else
    let sign := if v < 0 then "-" else ""
    let v1 := if v < 0 then wrapInt64 (-v) else v
    match toStrLoop 20 v1 (List.replicate 20 0) with
    | none => none
    | some (i, buf) => some (sign ++ stringOfBytes (buf.drop i))

/-! ### The JWT library (`github.com/golang-jwt/jwt/v5`) -/

/-- Raw bytes (`[]byte`), one natural number below 256 per byte. -/
abbrev Bytes := List Nat

/-- The signing methods `jwt/v5` registers at start-up. -/
inductive SigningMethod where
  | HS256 | HS384 | HS512
  | RS256 | RS384 | RS512
  | ES256 | ES384 | ES512
  | PS256 | PS384 | PS512
  | EdDSA
  | noneMethod
  deriving DecidableEq, Repr

/-- The `Alg()` name of a signing method. -/
def SigningMethod.Alg : SigningMethod → String
  | .HS256 => "HS256" | .HS384 => "HS384" | .HS512 => "HS512"
  | .RS256 => "RS256" | .RS384 => "RS384" | .RS512 => "RS512"
  | .ES256 => "ES256" | .ES384 => "ES384" | .ES512 => "ES512"
  | .PS256 => "PS256" | .PS384 => "PS384" | .PS512 => "PS512"
  | .EdDSA => "EdDSA"
  | .noneMethod => "none"

/-- All registered methods, in registration order. -/
def registeredMethods : List SigningMethod :=
  [.HS256, .HS384, .HS512, .RS256, .RS384, .RS512, .ES256, .ES384, .ES512,
   .PS256, .PS384, .PS512, .EdDSA, .noneMethod]

/-- The library function `jwt.GetSigningMethod`: the registered method of that name. -/
def GetSigningMethod (alg : String) : Option SigningMethod :=
  registeredMethods.find? (fun m => m.Alg == alg)

/-- The type `jwt.RegisteredClaims`; a `NumericDate` is an instant in nanoseconds. -/
structure RegisteredClaims where
  Issuer : String := ""
  Subject : String := ""
  Audience : List String := []
  ExpiresAt : Option Int := none
  NotBefore : Option Int := none
  IssuedAt : Option Int := none
  ID : String := ""
  deriving DecidableEq, Repr

/-- The fields of `jwt.Token` that the sources and the parser use. -/
structure Token where
  Raw : String
  Method : SigningMethod
  Claims : RegisteredClaims
  Signature : Bytes
  Valid : Bool
  deriving DecidableEq, Repr

/-- What the JWT library computes with encodings and cryptography. -/
structure JwtLib where
  /-- Base64url- and JSON-decode a header segment, giving its `alg` entry when
  that is a string (`some none`: decoded, no string `alg`). -/
  decodeHeader : String → Option (Option String)
  /-- Base64url- and JSON-decode a claims segment into `RegisteredClaims`. -/
  decodeClaims : String → Option RegisteredClaims
  /-- Base64url-decode a segment (`Parser.DecodeSegment`). -/
  decodeSegment : String → Option Bytes
  /-- Whether `method.Verify(signingString, sig, key)` returns nil. -/
  verify : SigningMethod → String → Bytes → Bytes → Bool
  /-- Base64url of the JSON of the header for a method. -/
  encodeHeader : SigningMethod → String
  /-- Base64url of the JSON of the claims; `none` when marshalling fails. -/
  encodeClaims : RegisteredClaims → Option String
  /-- The call `method.Sign(signingString, key)`; `none` for an error. -/
  sign : SigningMethod → String → Bytes → Option Bytes
  /-- Base64url-encode a segment. -/
  encodeSegment : Bytes → String

/-- Go `strings.Split(s, ".")` on runes. -/
def splitDots : List Char → List (List Char)
  | [] => [[]]
  | c :: cs =>
    match splitDots cs with
    | [] => [[]]
    | p :: ps => if c = '.' then [] :: p :: ps else (c :: p) :: ps

/-- The library call `Parser.ParseUnverified`: split into three segments, decode header and
claims, look the method up by the header's `alg`. No signature is checked. -/
def ParseUnverified (lib : JwtLib) (tokenString : String) :
    Except String (Token × String × String × String) :=
  match (splitDots tokenString.data).map String.mk with
  | [p0, p1, p2] =>
    match lib.decodeHeader p0 with
    | none => .error "token is malformed: could not decode header"
    | some alg? =>
      match lib.decodeClaims p1 with
      | none => .error "token is malformed: could not decode claim"
      | some claims =>
        match alg? with
        | some alg =>
          match GetSigningMethod alg with
          | none => .error "token is unverifiable: signing method (alg) is unavailable"
          | some m =>
            .ok ({ Raw := tokenString, Method := m, Claims := claims,
                   Signature := [], Valid := false }, p0, p1, p2)
        | none => .error "token is unverifiable: signing method (alg) is unspecified"
  | _ => .error "token is malformed: token contains an invalid number of segments"

/-- The default `Validator.Validate` of `jwt/v5` (no leeway, no expected issuer,
subject or audience, `iat` not verified): `exp`, when present, must be after
`now`; `nbf`, when present, must not be after `now`. -/
def validateClaims (now : Int) (c : RegisteredClaims) : Option String :=
  let expOk := match c.ExpiresAt with
    | none => true
    | some e => decide (now < e)
  let nbfOk := match c.NotBefore with
    | none => true
    | some n => decide (n ≤ now)
  if !expOk then some "token is expired"
  else if !nbfOk then some "token is not valid yet"
  else none

/-- Result of a parse: Go's `(token, err)` and, for the proofs, the list of
`Method.Verify` calls made, each with the method and the key it was given. -/
structure ParseResult where
  token : Option Token
  err : Option String
  verifyCalls : List (SigningMethod × Bytes)
  deriving DecidableEq, Repr

/-- The library call `jwt.ParseWithClaims` with the default parser: parse unverified, decode
the signature, ask `keyFunc` for the key, verify, validate the claims. -/
def ParseWithClaims (lib : JwtLib) (now : Int) (tokenString : String)
    (keyFunc : Token → Except String Bytes) : ParseResult :=
  match ParseUnverified lib tokenString with
  | .error e => { token := none, err := some e, verifyCalls := [] }
  | .ok (token, p0, p1, p2) =>
    match lib.decodeSegment p2 with
    | none =>
      { token := some token, err := some "token is malformed: could not base64 decode signature",
        verifyCalls := [] }
    | some sig =>
      let token := { token with Signature := sig }
      let text := p0 ++ "." ++ p1
      match keyFunc token with
      | .error e =>
        { token := some token,
          err := some ("token is unverifiable: error while executing keyfunc: " ++ e),
          verifyCalls := [] }
      | .ok key =>
        if !lib.verify token.Method text sig key then
          { token := some token, err := some "token signature is invalid",
            verifyCalls := [(token.Method, key)] }
        else
          match validateClaims now token.Claims with
          | some e =>
            { token := some token, err := some e, verifyCalls := [(token.Method, key)] }
          | none =>
            { token := some { token with Valid := true }, err := none,
              verifyCalls := [(token.Method, key)] }

/-! ### ValidateToken, GenerateToken -/

/-- The process state the token functions read: the library and `jwtSecret`. -/
structure AuthEnv where
  lib : JwtLib
  jwtSecret : Bytes

/-- The key function literal inside `ValidateToken`. -/
def keyFunc (jwtSecret : Bytes) (t : Token) : Except String Bytes :=
  if t.Method ≠ SigningMethod.HS256 then .error "unexpected signing method"
  else .ok jwtSecret

/-- Go's `(*jwt.RegisteredClaims, error)` returned by `ValidateToken`, with the
verification calls the parse made. -/
structure ValidateResult where
  claims : Option RegisteredClaims
  err : Option String
  verifyCalls : List (SigningMethod × Bytes)
  deriving DecidableEq, Repr

/-- The function `ValidateToken` of auth.go; `now` is the clock reading of the validator. The
type assertion `token.Claims.(*jwt.RegisteredClaims)` always holds, since the
claims object is the one passed in. -/
def ValidateToken (env : AuthEnv) (now : Int) (tokenStr : String) : ValidateResult :=
  let r := ParseWithClaims env.lib now tokenStr (keyFunc env.jwtSecret)
  match r.err with
  | some e => { claims := none, err := some e, verifyCalls := r.verifyCalls }
  | none =>
    match r.token with
    | none => { claims := none, err := some "invalid token", verifyCalls := r.verifyCalls }
    | some token =>
      if !token.Valid then
        { claims := none, err := some "invalid token", verifyCalls := r.verifyCalls }
      else { claims := some token.Claims, err := none, verifyCalls := r.verifyCalls }

/-- One second and 24 hours, in nanoseconds (`time.Second`, `24 * time.Hour`). -/
def second : Int := 1000000000

/-- The duration `24 * time.Hour` in nanoseconds. -/
def day : Int := 24 * 3600 * second

/-- The constructor `jwt.NewNumericDate`: the instant truncated to `jwt.TimePrecision`, one second. -/
def NewNumericDate (t : Int) : Int := t - t % second

/-- The claims literal of `GenerateToken`. Its fields are evaluated in source
order: `toStr(userID)`, then `time.Now()` for `ExpiresAt`, then `time.Now()`
again for `IssuedAt`; `clock k` is the k-th reading of the clock and `tick` the
number of readings taken before the call. `none`: `toStr` panicked. -/
def GenerateTokenClaims (clock : Nat → Int) (tick : Nat) (userID : Int) :
    Option RegisteredClaims :=
  match toStr userID with
  | none => none
  | some sub =>
    let expiresAt := NewNumericDate (clock tick + day)
    let issuedAt := NewNumericDate (clock (tick + 1))
    some { Subject := sub, ExpiresAt := some expiresAt, IssuedAt := some issuedAt }

/-- The call `Token.SignedString`: header and claims segments, signature over both. -/
def SignedString (lib : JwtLib) (m : SigningMethod) (c : RegisteredClaims) (key : Bytes) :
    Except String String :=
  match lib.encodeClaims c with
  | none => .error "json: marshal failed"
  | some cs =>
    let sstr := lib.encodeHeader m ++ "." ++ cs
    match lib.sign m sstr key with
    | none => .error "signing failed"
    | some sig => .ok (sstr ++ "." ++ lib.encodeSegment sig)

/-- The function `GenerateToken` of auth.go (`username` is unused by the source). `none`:
panic. -/
def GenerateToken (env : AuthEnv) (clock : Nat → Int) (tick : Nat) (userID : Int)
    (_username : String) : Option (Except String String) :=
  match GenerateTokenClaims clock tick userID with
  | none => none
  | some claims => some (SignedString env.lib SigningMethod.HS256 claims env.jwtSecret)

/-! ## net/http: requests, bodies, contexts -/

/-- An `io.ReadCloser` request body: the bytes not yet read, the error the
stream ends with in place of `io.EOF` (if any), and how many times it has been
read to its end. -/
structure Reader where
  data : Bytes
  fail : Option String := none
  drained : Nat := 0
  deriving DecidableEq, Repr

/-- The expression `io.NopCloser(bytes.NewReader(b))`: a fresh, unread, infallible reader over `b`. -/
def NewReader (b : Bytes) : Reader := { data := b, fail := none, drained := 0 }

/-- Go `io.ReadAll`: every unread byte and the error, with the reader left at
its end. -/
def ReadAll (r : Reader) : Bytes × Option String × Reader :=
  (r.data, r.fail, { r with data := [], drained := r.drained + 1 })

/-- Keys of a `context.Context`: values of the unexported type `ctxKey` of
middleware.go, or keys of any other type. -/
inductive CtxKey where
  | ctxKey (s : String)
  | other (s : String)
  deriving DecidableEq, Repr

/-- Values stored under `any`: an `int`, or something of another type. -/
inductive GoAny where
  | int (n : Int)
  | other (s : String)
  deriving DecidableEq, Repr

/-- A `context.Context` as the chain of `WithValue` layers, newest first. -/
abbrev Context := List (CtxKey × GoAny)

/-- The method `ctx.Value(key)`: the newest value stored under that key. -/
def Context.Value (ctx : Context) (key : CtxKey) : Option GoAny :=
  (ctx.find? (fun kv => kv.1 == key)).map (fun kv => kv.2)

/-- The function `context.WithValue`. -/
def Context.WithValue (ctx : Context) (key : CtxKey) (v : GoAny) : Context :=
  (key, v) :: ctx

/-- The fields of `*http.Request` the sources use. Header keys are canonical. -/
structure Request where
  Method : String
  Header : List (String × List String)
  Body : Option Reader
  ctx : Context
  deriving DecidableEq, Repr

/-- The method `Header.Get`: the first value under the key, `""` when there is none. -/
def Request.HeaderGet (r : Request) (key : String) : String :=
  match r.Header.find? (fun kv => kv.1 == key) with
  | some (_, v :: _) => v
  | _ => ""

/-- The method `r.WithContext(ctx)`. -/
def Request.WithContext (r : Request) (ctx : Context) : Request := { r with ctx := ctx }

/-! ## middleware.go -/

/-- The constant `userIDKey` of middleware.go. -/
def userIDKey : CtxKey := CtxKey.ctxKey "user_id"

/-- The status `http.StatusUnauthorized`. -/
def StatusUnauthorized : Nat := 401

/-- What the wrapped handler of `AuthMiddleware` does, in order: the call of
`ValidateToken` (with whether it returned a nil error), the call
`http.Error(w, msg, code)`, the call `next(w, r)`. -/
inductive Event where
  | validateToken (tokenStr : String) (ok : Bool)
  | httpError (msg : String) (code : Nat)
  | next (r : Request)
  deriving DecidableEq, Repr

/-- The handler returned by `AuthMiddleware(next)`, as the trace of its
effects; `now` is the clock reading `ValidateToken` takes. -/
def AuthMiddleware (env : AuthEnv) (now : Int) (r : Request) : List Event :=
  let h := r.HeaderGet "Authorization"
  if !HasPrefix h "Bearer " then
    [Event.httpError "Unauthorized" StatusUnauthorized]
  else
    let tokenStr := TrimSpace (TrimPrefix h "Bearer ")
    if tokenStr = "" then
      [Event.httpError "Unauthorized" StatusUnauthorized]
    else
      let res := ValidateToken env now tokenStr
      let ev := Event.validateToken tokenStr res.err.isNone
      match res.err, res.claims with
      | none, some claims =>
        if claims.Subject = "" then
          [ev, Event.httpError "Unauthorized" StatusUnauthorized]
        else
          match Atoi claims.Subject with
          | none => [ev, Event.httpError "Unauthorized" StatusUnauthorized]
          | some id =>
            if id ≤ 0 then [ev, Event.httpError "Unauthorized" StatusUnauthorized]
            else
              let ctx := r.ctx.WithValue userIDKey (GoAny.int id)
              [ev, Event.next (r.WithContext ctx)]
      | _, _ => [ev, Event.httpError "Unauthorized" StatusUnauthorized]

/-- The function `GetUserIDFromContext` of middleware.go. -/
def GetUserIDFromContext (r : Request) : Int × Bool :=
  match r.ctx.Value userIDKey with
  | some (GoAny.int id) => if id ≤ 0 then (0, false) else (id, true)
  | _ => (0, false)

/-! ## handlers.go -/

/-- What a second `Decoder.Decode(&struct{}{})` returns: `io.EOF`, nil (another
value followed), or another error. -/
inductive TailResult where
  | eof
  | value
  | err (msg : String)
  deriving DecidableEq, Repr

/-- The `encoding/json` decoder with `DisallowUnknownFields`, for a target type
`α`: the first `Decode` gives the value and the unread rest, or an error; the
second `Decode`, into an empty struct, is run on that rest. -/
structure JsonDecoder (α : Type) where
  first : Bytes → Except String (α × Bytes)
  second : Bytes → TailResult

/-- Outcome of `parseJSONStrict`: the request as it is afterwards, the returned
error, the decoded value, and the final state of the body the request came
with. When the read fails the request keeps that body, now read to its end. -/
structure ParseOutcome (α : Type) where
  req : Request
  err : Option String
  dst : Option α
  orig : Option Reader

/-- The function `parseJSONStrict` of handlers.go. -/
def parseJSONStrict {α : Type} (dec : JsonDecoder α) (r : Request) : ParseOutcome α :=
  match r.Body with
  | none => { req := r, err := some "request body is empty", dst := none, orig := none }
  | some body =>
    match ReadAll body with
    | (_, some e, body1) =>
      { req := { r with Body := some body1 }, err := some e, dst := none, orig := some body1 }
    | (b, none, body1) =>
      let r1 := { r with Body := some (NewReader b) }
      match dec.first b with
      | .error e => { req := r1, err := some e, dst := none, orig := some body1 }
      | .ok (v, rest) =>
        match dec.second rest with
        | TailResult.eof => { req := r1, err := none, dst := some v, orig := some body1 }
        | TailResult.value =>
          { req := r1, err := some "unexpected data after json", dst := some v,
            orig := some body1 }
        | TailResult.err e => { req := r1, err := some e, dst := some v, orig := some body1 }

/-- Modelled from the spec: the declaration of `RegisterRequest` is not among the
sources; these are the three fields handlers.go reads and writes, the
registration shape `email`/`username`/`password` of the spec. -/
structure RegisterRequest where
  Email : String
  Username : String
  Password : String
  deriving DecidableEq, Repr

/-- Modelled from the spec: the declaration of `LoginRequest` is not among the
sources; these are the two fields handlers.go reads and writes. -/
structure LoginRequest where
  Email : String
  Password : String
  deriving DecidableEq, Repr

/-- Modelled from the spec: the declaration of `User` is not among the sources;
the fields are those database.go scans into, the Credential Record of the spec. -/
structure User where
  ID : Int
  Email : String
  Username : String
  PasswordHash : String
  CreatedAt : Int
  deriving DecidableEq, Repr

/-- The function `validateRegisterRequest` of handlers.go: the request after the two
assignments, and the returned error. -/
def validateRegisterRequest (lower : Char → Char) (req : RegisterRequest) :
    RegisterRequest × Option String :=
  let req := { req with Email := TrimSpace (ToLower lower req.Email) }
  let req := { req with Username := TrimSpace req.Username }
  if req.Email = "" then (req, some "email is required")
  else if req.Username = "" then (req, some "username is required")
  else if TrimSpace req.Password = "" then (req, some "password is required")
  else if len req.Password < 6 then (req, some "password too short")
  else (req, none)

/-- The function `validateLoginRequest` of handlers.go. -/
def validateLoginRequest (lower : Char → Char) (req : LoginRequest) :
    LoginRequest × Option String :=
  let req := { req with Email := TrimSpace (ToLower lower req.Email) }
  if req.Email = "" then (req, some "email is required")
  else if TrimSpace req.Password = "" then (req, some "password is required")
  else (req, none)

/-! ## database.go -/

/-- Errors of `database/sql` and the driver: `sql.ErrNoRows`, a violated
unique constraint, or anything else (connection lost, syntax, ...). -/
inductive DbError where
  | ErrNoRows
  | uniqueViolation (constraintName : String)
  | other (msg : String)
  deriving DecidableEq, Repr

/-- The text `err.Error()` of a database error. -/
def DbError.Error : DbError → String
  | .ErrNoRows => "sql: no rows in result set"
  | .uniqueViolation c => "pq: duplicate key value violates unique constraint " ++ c
  | .other m => m

/-- The four statements database.go runs on the global `db`, each a
`QueryRow(...).Scan(...)`. -/
structure Db where
  /-- The `INSERT ... RETURNING id, created_at` of `CreateUser`. -/
  insertUser : String → String → String → Except DbError (Int × Int)
  /-- The `SELECT ... WHERE email = $1` of `GetUserByEmail`. -/
  selectByEmail : String → Except DbError User
  /-- The `SELECT ... WHERE id = $1` of `GetUserByID`. -/
  selectByID : Int → Except DbError User
  /-- The `SELECT EXISTS(...)` of `UserExistsByEmail`. -/
  selectExists : String → Except DbError Bool

/-- The function `CreateUser` of database.go. -/
def CreateUser (db : Db) (email username passwordHash : String) : Except DbError User :=
  match db.insertUser email username passwordHash with
  | .error err => .error err
  | .ok (id, createdAt) =>
    .ok { ID := id, Email := email, Username := username, PasswordHash := passwordHash,
          CreatedAt := createdAt }

/-- The function `GetUserByEmail` of database.go. -/
def GetUserByEmail (db : Db) (email : String) : Except DbError User :=
  match db.selectByEmail email with
  | .error err => if err = DbError.ErrNoRows then .error DbError.ErrNoRows else .error err
  | .ok u => .ok u

/-- The function `GetUserByID` of database.go. -/
def GetUserByID (db : Db) (userID : Int) : Except DbError User :=
  match db.selectByID userID with
  | .error err => if err = DbError.ErrNoRows then .error DbError.ErrNoRows else .error err
  | .ok u => .ok u

/-- The function `UserExistsByEmail` of database.go. -/
def UserExistsByEmail (db : Db) (email : String) : Except DbError Bool :=
  match db.selectExists email with
  | .error err => .error err
  | .ok ex => .ok ex

/-! ## handlers.go: the handlers -/

/-- Everything the handlers reach through globals and imports. -/
structure App where
  auth : AuthEnv
  db : Db
  /-- The table `unicode.ToLower`. -/
  lower : Char → Char
  /-- The call `bcrypt.GenerateFromPassword(pw, DefaultCost)`. -/
  bcryptGenerate : String → Except String String
  /-- Whether `bcrypt.CompareHashAndPassword(hash, pw)` returns nil. -/
  bcryptCompare : String → String → Bool
  decRegister : JsonDecoder RegisterRequest
  decLogin : JsonDecoder LoginRequest
  clock : Nat → Int

/-- The function `HashPassword` of auth.go. -/
def HashPassword (app : App) (password : String) : Except String String :=
  app.bcryptGenerate password

/-- The function `CheckPassword` of auth.go. -/
def CheckPassword (app : App) (hash password : String) : Bool :=
  app.bcryptCompare hash password

/-- What a handler writes: `http.Error(w, msg, code)`, `writeJSON` with the
token and user payload, or `writeJSON` with the user alone; `panic` is a run-time panic inside the handler. -/
inductive Response where
  | error (msg : String) (code : Nat)
  | json (status : Nat) (token : String) (user : User)
  | profile (status : Nat) (user : User)
  | panic
  deriving DecidableEq, Repr

/-- The function `requireJSON` of handlers.go: whether the content type is accepted. -/
def requireJSON (lower : Char → Char) (r : Request) : Bool :=
  HasPrefix (ToLower lower (r.HeaderGet "Content-Type")) "application/json"

/-- The function `RegisterHandler` of handlers.go; `tick` counts the clock readings taken
before the call. -/
def RegisterHandler (app : App) (tick : Nat) (r : Request) : Response :=
  if r.Method ≠ "POST" then .error "Method not allowed" 405
  else if !requireJSON app.lower r then .error "Content-Type must be application/json" 415
  else
    let p := parseJSONStrict app.decRegister r
    match p.err with
    | some _ => .error "invalid json" 400
    | none =>
      let (req, verr) := validateRegisterRequest app.lower (p.dst.getD ⟨"", "", ""⟩)
      match verr with
      | some e => .error e 400
      | none =>
        match UserExistsByEmail app.db req.Email with
        | .error _ => .error "db error" 500
        | .ok true => .error "user already exists" 409
        | .ok false =>
          match HashPassword app req.Password with
          | .error _ => .error "failed to hash password" 500
          | .ok hash =>
            match CreateUser app.db req.Email req.Username hash with
            | .error _ => .error "db error" 500
            | .ok u =>
              match GenerateToken app.auth app.clock tick u.ID u.Username with
              | none => .panic
              | some (.error _) => .error "failed to generate token" 500
              | some (.ok token) => .json 201 token u

/-- The function `LoginHandler` of handlers.go. -/
def LoginHandler (app : App) (tick : Nat) (r : Request) : Response :=
  if r.Method ≠ "POST" then .error "Method not allowed" 405
  else if !requireJSON app.lower r then .error "Content-Type must be application/json" 415
  else
    let p := parseJSONStrict app.decLogin r
    match p.err with
    | some _ => .error "invalid json" 400
    | none =>
      let (req, verr) := validateLoginRequest app.lower (p.dst.getD ⟨"", ""⟩)
      match verr with
      | some e => .error e 400
      | none =>
        match GetUserByEmail app.db req.Email with
        | .error _ => .error "Invalid email or password" 401
        | .ok u =>
          if !CheckPassword app u.PasswordHash req.Password then
            .error "Invalid email or password" 401
          else
            match GenerateToken app.auth app.clock tick u.ID u.Username with
            | none => .panic
            | some (.error _) => .error "failed to generate token" 500
            | some (.ok token) => .json 200 token u

/-- The function `ProfileHandler` of handlers.go. -/
def ProfileHandler (app : App) (r : Request) : Response :=
  if r.Method ≠ "GET" then .error "Method not allowed" 405
  else
    match GetUserIDFromContext r with
    | (_, false) => .error "Unauthorized" 401
    | (userID, true) =>
      match GetUserByID app.db userID with
      | .error err =>
        if err = DbError.ErrNoRows then .error "User not found" 404
        else .error "db error" 500
      | .ok u => .profile 200 u

/-! ## Vocabulary of the statements -/

/-- The `alg` entry of a token string's header: the token has three segments
and the first decodes to a header with a string `alg`. -/
def tokenAlg (lib : JwtLib) (tokenString : String) : Option String :=
  match (splitDots tokenString.data).map String.mk with
  | [p0, _, _] => (lib.decodeHeader p0).join
  | _ => none

/-- The token string `AuthMiddleware` extracts from a request. -/
def bearerToken (r : Request) : String :=
  TrimSpace (TrimPrefix (r.HeaderGet "Authorization") "Bearer ")

/-- A subject that is empty or does not parse to an integer greater than 0. -/
def BadSubject (sub : String) : Prop :=
  sub = "" ∨ ∀ id, Atoi sub = some id → id ≤ 0

/-- The conditions under which `AuthMiddleware` is said not to forward: no
`Bearer ` prefix, an empty token, an error or nil claims from `ValidateToken`,
or a bad subject. -/
def RejectCond (env : AuthEnv) (now : Int) (r : Request) : Prop :=
  HasPrefix (r.HeaderGet "Authorization") "Bearer " = false ∨
  bearerToken r = "" ∨
  (ValidateToken env now (bearerToken r)).err ≠ none ∨
  (ValidateToken env now (bearerToken r)).claims = none ∨
  ∃ c, (ValidateToken env now (bearerToken r)).claims = some c ∧ BadSubject c.Subject

/-- The events of a trace that are visible outside: everything but the
internal call of `ValidateToken`. -/
def responses (tr : List Event) : List Event :=
  tr.filter (fun e => match e with
    | Event.validateToken _ _ => false
    | _ => true)

/-- The one rejection `AuthMiddleware` writes. -/
def unauthorized : Event := Event.httpError "Unauthorized" 401

/-! ## Concrete instances, for evaluating the sources -/

/-- An instance of the library interface with transparent encodings: a header
segment is the `alg` name, a claims segment is the subject, a signature
segment is its own code points, and a signature verifies when the method is
HS256 and the signature equals the key. -/
def plainLib : JwtLib where
  decodeHeader := fun seg => if seg = "" then none else some (some seg)
  decodeClaims := fun seg => some { Subject := seg }
  decodeSegment := fun seg => some (seg.data.map Char.toNat)
  verify := fun m _ sig key => decide (m = SigningMethod.HS256) && decide (sig = key)
  encodeHeader := fun m => m.Alg
  encodeClaims := fun c => some c.Subject
  sign := fun _ _ key => some key
  encodeSegment := fun b => stringOfBytes b

/-- An environment over `plainLib` whose secret is the one byte `k`. -/
def plainEnv : AuthEnv := { lib := plainLib, jwtSecret := [107] }

/-- A GET request with the given `Authorization` header values and nothing else. -/
def requestWithAuth (vs : List String) : Request :=
  { Method := "GET", Header := [("Authorization", vs)], Body := none, ctx := [] }

/-- A GET request without any header. -/
def bareRequest : Request := { Method := "GET", Header := [], Body := none, ctx := [] }

/-- A clock whose first reading is one nanosecond before the end of second 0
and whose later readings are the start of second 1. -/
def boundaryClock (k : Nat) : Int := if k = 0 then 999999999 else 1000000000

/-- A JSON decoder standing for a body that holds exactly the value `v`: any
non-empty body decodes to `v` with nothing left over. -/
def constDecoder {α : Type} (v : α) : JsonDecoder α where
  first := fun b => if b = [] then Except.error "EOF" else Except.ok (v, [])
  second := fun rest => if rest = [] then TailResult.eof else TailResult.value

/-- A store in which the email is free at the existence check and taken at the
insert (a concurrent registration won the race), and whose lookups fail with a
connection error. -/
def racedDb : Db where
  insertUser := fun _ _ _ => Except.error (DbError.uniqueViolation "users_email_key")
  selectByEmail := fun _ => Except.error (DbError.other "connection refused")
  selectByID := fun _ => Except.error (DbError.other "connection refused")
  selectExists := fun _ => Except.ok false

/-- An application over `racedDb` whose request bodies decode to fixed values. -/
def racedApp : App where
  auth := plainEnv
  db := racedDb
  lower := Char.toLower
  bcryptGenerate := fun pw => Except.ok ("$2a$10$" ++ pw)
  bcryptCompare := fun hash pw => decide (hash = "$2a$10$" ++ pw)
  decRegister := constDecoder ⟨"a@b.com", "a", "secret1"⟩
  decLogin := constDecoder ⟨"a@b.com", "secret1"⟩
  clock := fun _ => 0

/-- A POST request with a JSON content type and a one-byte body. -/
def jsonPost : Request :=
  { Method := "POST", Header := [("Content-Type", ["application/json"])],
    Body := some (NewReader [123]), ctx := [] }

/-- A clock that stands still for a day between its first two readings. -/
def stalledClock (k : Nat) : Int := if k = 0 then 0 else 86400000000000

/-- A GET request that `AuthMiddleware` has bound to identity 7. -/
def authedGet : Request :=
  { Method := "GET", Header := [], Body := none, ctx := [(userIDKey, GoAny.int 7)] }

/-! ## Lemmas -/

theorem GetSigningMethod_HS256 (alg : String)
    (h : GetSigningMethod alg = some SigningMethod.HS256) : alg = "HS256" := by
  have := List.find?_some h
  simp only [SigningMethod.Alg, beq_iff_eq] at this
  exact this.symm

theorem ParseUnverified_alg (lib : JwtLib) (s : String) (t : Token) (p0 p1 p2 : String)
    (h : ParseUnverified lib s = .ok (t, p0, p1, p2)) :
    ∃ alg, tokenAlg lib s = some alg ∧ GetSigningMethod alg = some t.Method := by
  unfold ParseUnverified at h
  unfold tokenAlg
  split at h
  · rename_i q0 q1 q2 hs
    split at h
    · cases h
    · rename_i alg? hh
      split at h
      · cases h
      · split at h
        · rename_i alg
          split at h
          · cases h
          · rename_i m hm
            simp only [Except.ok.injEq, Prod.mk.injEq] at h
            refine ⟨alg, ?_, ?_⟩
            · rw [hh]; rfl
            · rw [hm, ← h.1]
        · cases h
  · cases h

theorem ValidateToken_not_HS256 (env : AuthEnv) (now : Int) (tokenStr : String)
    (h : tokenAlg env.lib tokenStr ≠ some "HS256") :
    (ValidateToken env now tokenStr).err ≠ none ∧
    (ValidateToken env now tokenStr).claims = none ∧
    (ValidateToken env now tokenStr).verifyCalls = [] := by
  unfold ValidateToken ParseWithClaims
  cases hp : ParseUnverified env.lib tokenStr with
  | error e => simp
  | ok v =>
    obtain ⟨t, p0, p1, p2⟩ := v
    obtain ⟨alg, ha, hm⟩ := ParseUnverified_alg _ _ _ _ _ _ hp
    have hne : t.Method ≠ SigningMethod.HS256 := by
      intro hc
      rw [hc] at hm
      have := GetSigningMethod_HS256 _ hm
      exact h (by rw [ha, this])
    simp only []
    cases hd : env.lib.decodeSegment p2 with
    | none => simp
    | some sig => simp [keyFunc, hne]

/-- Every run of `AuthMiddleware` has one of three shapes. -/
theorem AuthMiddleware_shape (env : AuthEnv) (now : Int) (r : Request) :
    (AuthMiddleware env now r = [unauthorized] ∧
      (HasPrefix (r.HeaderGet "Authorization") "Bearer " = false ∨ bearerToken r = "")) ∨
    (AuthMiddleware env now r =
        [Event.validateToken (bearerToken r) (ValidateToken env now (bearerToken r)).err.isNone,
         unauthorized] ∧
      HasPrefix (r.HeaderGet "Authorization") "Bearer " = true ∧ bearerToken r ≠ "" ∧
      ((ValidateToken env now (bearerToken r)).err ≠ none ∨
       (ValidateToken env now (bearerToken r)).claims = none ∨
       ∃ c, (ValidateToken env now (bearerToken r)).claims = some c ∧ BadSubject c.Subject)) ∨
    (∃ c id,
      AuthMiddleware env now r =
        [Event.validateToken (bearerToken r) true,
         Event.next (r.WithContext (r.ctx.WithValue userIDKey (GoAny.int id)))] ∧
      HasPrefix (r.HeaderGet "Authorization") "Bearer " = true ∧ bearerToken r ≠ "" ∧
      (ValidateToken env now (bearerToken r)).err = none ∧
      (ValidateToken env now (bearerToken r)).claims = some c ∧
      c.Subject ≠ "" ∧ Atoi c.Subject = some id ∧ 0 < id) := by
  have hb : TrimSpace (TrimPrefix (r.HeaderGet "Authorization") "Bearer ") = bearerToken r := rfl
  unfold AuthMiddleware
  simp only [hb]
  by_cases hp : HasPrefix (r.HeaderGet "Authorization") "Bearer " = true
  swap
  · left
    simp only [Bool.not_eq_true] at hp
    simp [hp, unauthorized, StatusUnauthorized]
  by_cases ht : bearerToken r = ""
  · left
    simp [hp, ht, unauthorized, StatusUnauthorized]
  right
  simp only [hp, Bool.not_true, Bool.false_eq_true, if_false, ht]
  cases he : (ValidateToken env now (bearerToken r)).err with
  | some e =>
    left
    simp [unauthorized, StatusUnauthorized, ht]
  | none =>
    cases hc : (ValidateToken env now (bearerToken r)).claims with
    | none =>
      left
      simp [unauthorized, StatusUnauthorized, ht]
    | some c =>
      simp only []
      by_cases hs : c.Subject = ""
      · left
        simp [hs, unauthorized, StatusUnauthorized, ht, BadSubject]
      · cases ha : Atoi c.Subject with
        | none =>
          left
          simp [hs, ha, unauthorized, StatusUnauthorized, ht, BadSubject]
        | some id =>
          by_cases hid : id ≤ 0
          · left
            simp [hs, ha, hid, unauthorized, StatusUnauthorized, ht, BadSubject]
          · right
            refine ⟨c, id, ?_⟩
            have hid2 : 0 < id := by omega
            simp [hs, ha, hid, ht, hid2]

/-! ## C1 - C4: the authorization gate and token validation -/

/-- C1. On every path named by the claim (no `Bearer ` prefix, empty token, error
or nil claims from `ValidateToken`, empty subject, subject that does not parse
to an integer greater than 0) the only thing `AuthMiddleware` writes is
`http.Error(w, "Unauthorized", 401)`, the same for every such request, and the
downstream handler is not invoked. -/
theorem AuthMiddleware_rejects_uniformly (env : AuthEnv) (now : Int) (r : Request)
    (h : RejectCond env now r) :
    responses (AuthMiddleware env now r) = [Event.httpError "Unauthorized" 401] ∧
    ∀ r', Event.next r' ∉ AuthMiddleware env now r := by
  rcases AuthMiddleware_shape env now r with ⟨e, _⟩ | ⟨e, _⟩ | ⟨c, id, _, hp, ht, he, hc, hs, ha, hid⟩
  · rw [e]; simp [responses, unauthorized]
  · rw [e]; simp [responses, unauthorized]
  · exfalso
    rcases h with h | h | h | h | ⟨c', hc', hbad⟩
    · rw [hp] at h; cases h
    · exact ht h
    · exact h he
    · rw [hc] at h; cases h
    · rw [hc] at hc'
      cases hc'
      rcases hbad with hbad | hbad
      · exact hs hbad
      · have := hbad id ha
        omega

/-- C1, at two requests: one without an `Authorization` header and one with
`Authorization: Bearer ` get the same response. -/
theorem AuthMiddleware_rejects_uniformly_witness :
    (responses (AuthMiddleware plainEnv 0 bareRequest) = [Event.httpError "Unauthorized" 401] ∧
      ∀ r', Event.next r' ∉ AuthMiddleware plainEnv 0 bareRequest) ∧
    (responses (AuthMiddleware plainEnv 0 (requestWithAuth ["Bearer "])) =
        [Event.httpError "Unauthorized" 401] ∧
      ∀ r', Event.next r' ∉ AuthMiddleware plainEnv 0 (requestWithAuth ["Bearer "])) :=
  ⟨AuthMiddleware_rejects_uniformly plainEnv 0 bareRequest (Or.inl (by decide)),
   AuthMiddleware_rejects_uniformly plainEnv 0 (requestWithAuth ["Bearer "])
     (Or.inr (Or.inl (by decide)))⟩

/-- C2. Whenever `AuthMiddleware` invokes the downstream handler, `ValidateToken`
succeeded on the trimmed header token with claims `c`, the identity is
`strconv.Atoi c.Subject`, it is greater than 0, the forwarded request is the
incoming one with that identity bound under `userIDKey`,
`GetUserIDFromContext` returns it with `true`, and the whole run is the call of
`ValidateToken` followed by exactly one call of the handler. -/
theorem AuthMiddleware_forwards_identity (env : AuthEnv) (now : Int) (r r' : Request)
    (h : Event.next r' ∈ AuthMiddleware env now r) :
    ∃ c id,
      (ValidateToken env now (bearerToken r)).err = none ∧
      (ValidateToken env now (bearerToken r)).claims = some c ∧
      Atoi c.Subject = some id ∧ 0 < id ∧
      r' = r.WithContext (r.ctx.WithValue userIDKey (GoAny.int id)) ∧
      GetUserIDFromContext r' = (id, true) ∧
      AuthMiddleware env now r = [Event.validateToken (bearerToken r) true, Event.next r'] := by
  rcases AuthMiddleware_shape env now r with ⟨e, _⟩ | ⟨e, _⟩ | ⟨c, id, e, _, _, he, hc, _, ha, hid⟩
  · rw [e] at h; simp [unauthorized] at h
  · rw [e] at h; simp [unauthorized] at h
  · rw [e] at h
    simp only [List.mem_cons, List.mem_singleton, Event.next.injEq, List.not_mem_nil,
      or_false, false_or, reduceCtorEq] at h
    subst h
    refine ⟨c, id, he, hc, ha, hid, rfl, ?_, e⟩
    have hid2 : ¬ id ≤ 0 := by omega
    simp [GetUserIDFromContext, Context.Value, Context.WithValue, Request.WithContext, hid2]

/-- C2, at a request carrying a token for identity 42. -/
theorem AuthMiddleware_forwards_identity_witness :
    ∃ c id,
      (ValidateToken plainEnv 0 (bearerToken (requestWithAuth ["Bearer HS256.42.k"]))).err = none ∧
      (ValidateToken plainEnv 0 (bearerToken (requestWithAuth ["Bearer HS256.42.k"]))).claims
        = some c ∧
      Atoi c.Subject = some id ∧ 0 < id ∧
      ((requestWithAuth ["Bearer HS256.42.k"]).WithContext [(userIDKey, GoAny.int 42)]) =
        (requestWithAuth ["Bearer HS256.42.k"]).WithContext
          ((requestWithAuth ["Bearer HS256.42.k"]).ctx.WithValue userIDKey (GoAny.int id)) ∧
      GetUserIDFromContext
        ((requestWithAuth ["Bearer HS256.42.k"]).WithContext [(userIDKey, GoAny.int 42)])
        = (id, true) ∧
      AuthMiddleware plainEnv 0 (requestWithAuth ["Bearer HS256.42.k"]) =
        [Event.validateToken (bearerToken (requestWithAuth ["Bearer HS256.42.k"])) true,
         Event.next
           ((requestWithAuth ["Bearer HS256.42.k"]).WithContext [(userIDKey, GoAny.int 42)])] :=
  AuthMiddleware_forwards_identity plainEnv 0 (requestWithAuth ["Bearer HS256.42.k"])
    ((requestWithAuth ["Bearer HS256.42.k"]).WithContext [(userIDKey, GoAny.int 42)])
    (by decide)

/-- C3. A token string whose header does not name HS256 (it names another method,
or no method can be read from it) makes `ValidateToken` return a non-nil error
and nil claims, whatever the signature segment holds; no `Verify` call is made,
so the secret is never used on such a token, and the key function returns an
error for every token whose method is not HS256. -/
theorem ValidateToken_rejects_other_alg (env : AuthEnv) (now : Int) (tokenStr : String)
    (h : tokenAlg env.lib tokenStr ≠ some "HS256") :
    (ValidateToken env now tokenStr).err ≠ none ∧
    (ValidateToken env now tokenStr).claims = none ∧
    (ValidateToken env now tokenStr).verifyCalls = [] ∧
    ∀ t : Token, t.Method ≠ SigningMethod.HS256 →
      keyFunc env.jwtSecret t = Except.error "unexpected signing method" := by
  obtain ⟨h1, h2, h3⟩ := ValidateToken_not_HS256 env now tokenStr h
  refine ⟨h1, h2, h3, ?_⟩
  intro t ht
  simp [keyFunc, ht]

/-- C3, at a token that names the method `none` and at one that names HS384 with
the signature the secret would give. -/
theorem ValidateToken_rejects_other_alg_witness :
    ((ValidateToken plainEnv 0 "none.42.").err ≠ none ∧
      (ValidateToken plainEnv 0 "none.42.").claims = none ∧
      (ValidateToken plainEnv 0 "none.42.").verifyCalls = [] ∧
      ∀ t : Token, t.Method ≠ SigningMethod.HS256 →
        keyFunc plainEnv.jwtSecret t = Except.error "unexpected signing method") ∧
    (ValidateToken plainEnv 0 "HS384.42.k").err ≠ none :=
  ⟨ValidateToken_rejects_other_alg plainEnv 0 "none.42." (by decide),
   (ValidateToken_rejects_other_alg plainEnv 0 "HS384.42.k" (by decide)).1⟩

/-- C4, refuted as stated: the token `GenerateToken` issues for identity 0
carries the subject "0", and `ValidateToken` returns its claims without error
although "0" does not parse to an integer greater than 0; a token with an empty
subject is returned without error as well. -/
theorem ValidateToken_accepts_bad_subject :
    GenerateToken plainEnv (fun _ => 0) 0 0 "" = some (Except.ok "HS256.0.k") ∧
    (ValidateToken plainEnv 0 "HS256.0.k").err = none ∧
    (ValidateToken plainEnv 0 "HS256.0.k").claims = some { Subject := "0" } ∧
    Atoi "0" = some 0 ∧
    (ValidateToken plainEnv 0 "HS256..k").err = none ∧
    (ValidateToken plainEnv 0 "HS256..k").claims = some { Subject := "" } :=
  ⟨rfl, by decide, by decide, by decide, by decide, by decide⟩

/-- C4, amended. The subject is checked by `AuthMiddleware`, not by
`ValidateToken`: when `ValidateToken` returns claims without error and their
subject is empty or does not parse to an integer greater than 0,
`AuthMiddleware` answers 401 and does not forward. -/
theorem AuthMiddleware_rejects_bad_subject (env : AuthEnv) (now : Int) (r : Request)
    (c : RegisteredClaims)
    (hp : HasPrefix (r.HeaderGet "Authorization") "Bearer " = true)
    (ht : bearerToken r ≠ "")
    (he : (ValidateToken env now (bearerToken r)).err = none)
    (hc : (ValidateToken env now (bearerToken r)).claims = some c)
    (hbad : BadSubject c.Subject) :
    AuthMiddleware env now r =
      [Event.validateToken (bearerToken r) true, Event.httpError "Unauthorized" 401] := by
  rcases AuthMiddleware_shape env now r with ⟨_, h | h⟩ | ⟨e, _⟩ | ⟨c', id, _, _, _, _, hc', hs, ha, hid⟩
  · rw [hp] at h; cases h
  · exact absurd h ht
  · rw [e, he]; rfl
  · exfalso
    rw [hc] at hc'
    cases hc'
    rcases hbad with hbad | hbad
    · exact hs hbad
    · have := hbad id ha
      omega

/-- C4 amended, at a request whose token is valid for `ValidateToken` and has
the subject "0". -/
theorem AuthMiddleware_rejects_bad_subject_witness :
    AuthMiddleware plainEnv 0 (requestWithAuth ["Bearer HS256.0.k"]) =
      [Event.validateToken (bearerToken (requestWithAuth ["Bearer HS256.0.k"])) true,
       Event.httpError "Unauthorized" 401] :=
  AuthMiddleware_rejects_bad_subject plainEnv 0 (requestWithAuth ["Bearer HS256.0.k"])
    { Subject := "0" } (by decide) (by decide) (by decide) (by decide)
    (Or.inr (by decide))

/-- What `ValidateToken` checks, and all it checks: three segments that decode,
a header naming HS256, a signature that verifies under the secret, and claims
whose `exp`/`nbf` admit the current time. The subject plays no part. -/
theorem ValidateToken_ok_of_parse (env : AuthEnv) (now : Int) (tokenStr : String)
    (t : Token) (p0 p1 p2 : String) (sig : Bytes)
    (hp : ParseUnverified env.lib tokenStr = Except.ok (t, p0, p1, p2))
    (hm : t.Method = SigningMethod.HS256)
    (hs : env.lib.decodeSegment p2 = some sig)
    (hv : env.lib.verify SigningMethod.HS256 (p0 ++ "." ++ p1) sig env.jwtSecret = true)
    (hc : validateClaims now t.Claims = none) :
    ValidateToken env now tokenStr =
      { claims := some t.Claims, err := none,
        verifyCalls := [(SigningMethod.HS256, env.jwtSecret)] } := by
  unfold ValidateToken ParseWithClaims
  simp [hp, hs, keyFunc, hm, hv, hc]

/-! ## C5: strict decoding leaves the body readable -/

/-- C5. For a request whose body is present and reads without error,
`parseJSONStrict` (whatever the decoder returns) leaves a request that differs
from the incoming one only in its body, which is a fresh reader over exactly
the bytes read; reading that reader yields those bytes and no error; the
original body has been read to its end once more than before. With a nil body
it returns an error and the request is untouched. -/
theorem parseJSONStrict_preserves_body {α : Type} (dec : JsonDecoder α) (r : Request)
    (body : Reader) (hb : r.Body = some body) (hf : body.fail = none) :
    (parseJSONStrict dec r).req = { r with Body := some (NewReader body.data) } ∧
    (ReadAll (NewReader body.data)).1 = body.data ∧
    (ReadAll (NewReader body.data)).2.1 = none ∧
    (parseJSONStrict dec r).orig = some { body with data := [], drained := body.drained + 1 } ∧
    (parseJSONStrict dec { r with Body := none }).err ≠ none ∧
    (parseJSONStrict dec { r with Body := none }).req = { r with Body := none } ∧
    (parseJSONStrict dec { r with Body := none }).orig = none := by
  refine ⟨?_, rfl, rfl, ?_, by simp [parseJSONStrict], by simp [parseJSONStrict],
    by simp [parseJSONStrict]⟩
  · unfold parseJSONStrict
    rw [hb]
    simp only [ReadAll, hf]
    cases dec.first body.data with
    | error e => rfl
    | ok v =>
      obtain ⟨v, rest⟩ := v
      simp only []
      cases dec.second rest <;> rfl
  · unfold parseJSONStrict
    rw [hb]
    simp only [ReadAll, hf]
    cases dec.first body.data with
    | error e => rfl
    | ok v =>
      obtain ⟨v, rest⟩ := v
      simp only []
      cases dec.second rest <;> rfl

/-- C5, at a POST request with a one-byte body. -/
theorem parseJSONStrict_preserves_body_witness :
    (parseJSONStrict (constDecoder (0 : Nat)) jsonPost).req =
      { jsonPost with Body := some (NewReader (NewReader [123]).data) } ∧
    (ReadAll (NewReader (NewReader [123]).data)).1 = (NewReader [123]).data ∧
    (ReadAll (NewReader (NewReader [123]).data)).2.1 = none ∧
    (parseJSONStrict (constDecoder (0 : Nat)) jsonPost).orig =
      some { NewReader [123] with data := [], drained := (NewReader [123]).drained + 1 } ∧
    (parseJSONStrict (constDecoder (0 : Nat)) { jsonPost with Body := none }).err ≠ none ∧
    (parseJSONStrict (constDecoder (0 : Nat)) { jsonPost with Body := none }).req =
      { jsonPost with Body := none } ∧
    (parseJSONStrict (constDecoder (0 : Nat)) { jsonPost with Body := none }).orig = none :=
  parseJSONStrict_preserves_body (constDecoder (0 : Nat)) jsonPost (NewReader [123]) rfl rfl

/-! ## C6, C7: token issuance -/

/-- C6, at the failing input: for the smallest `int64`, `v = -v` wraps back to
the same negative value, the digit loop does not run, and `toStr` returns "-",
which `strconv.Atoi` does not parse. -/
theorem toStr_minInt64 :
    wrapInt64 (-minInt64) = minInt64 ∧
    toStr minInt64 = some "-" ∧
    toStr (-9223372036854775808) = some "-" ∧
    Atoi "-" = none := by
  decide

/-- C7, at the failing input: `GenerateToken` reads the clock twice, first for
`ExpiresAt` and then for `IssuedAt`. With readings 0.999999999 s and
1.000000000 s the claims have expires-at 86400 s and issued-at 1 s, one second
short of issued-at + 86400 s; with a second reading a day after the first,
expires-at equals issued-at. Both clocks are non-decreasing. -/
theorem GenerateToken_two_clock_readings :
    (∀ k, boundaryClock k ≤ boundaryClock (k + 1)) ∧
    GenerateTokenClaims boundaryClock 0 7 =
      some { Subject := "7", ExpiresAt := some (86400 * second),
             IssuedAt := some (1 * second) } ∧
    86400 * second ≠ 1 * second + 86400 * second ∧
    (∀ k, stalledClock k ≤ stalledClock (k + 1)) ∧
    GenerateTokenClaims stalledClock 0 7 =
      some { Subject := "7", ExpiresAt := some (86400 * second),
             IssuedAt := some (86400 * second) } := by
  refine ⟨?_, by decide, by decide, ?_, by decide⟩
  · intro k
    unfold boundaryClock
    split <;> simp
  · intro k
    unfold stalledClock
    split <;> simp

/-- What does hold of the two timestamps: with a clock that does not go back
between the two readings, expires-at is at most issued-at + 86400 s, and it
is exactly that when both readings fall in the same second. -/
theorem GenerateTokenClaims_lifetime (clock : Nat → Int) (tick : Nat) (userID : Int)
    (c : RegisteredClaims) (hmono : clock tick ≤ clock (tick + 1))
    (h : GenerateTokenClaims clock tick userID = some c) :
    ∃ e i, c.ExpiresAt = some e ∧ c.IssuedAt = some i ∧ e ≤ i + day ∧
      (clock tick / second = clock (tick + 1) / second → e = i + day) := by
  unfold GenerateTokenClaims at h
  cases hs : toStr userID with
  | none => rw [hs] at h; cases h
  | some sub =>
    rw [hs] at h
    simp only [Option.some.injEq] at h
    subst h
    refine ⟨_, _, rfl, rfl, ?_, ?_⟩
    · unfold NewNumericDate day second
      omega
    · unfold NewNumericDate day second
      omega

/-! ## C8, C9: registration and login -/

/-- C8, refuted as stated: a registration that passes the method, content-type,
decoding, validation and existence steps and whose insert fails with a
uniqueness conflict is answered with 500 "db error", not with 409. -/
theorem RegisterHandler_conflict_is_500 :
    jsonPost.Method = "POST" ∧
    requireJSON racedApp.lower jsonPost = true ∧
    (parseJSONStrict racedApp.decRegister jsonPost).err = none ∧
    validateRegisterRequest racedApp.lower ⟨"a@b.com", "a", "secret1"⟩ =
      (⟨"a@b.com", "a", "secret1"⟩, none) ∧
    UserExistsByEmail racedApp.db "a@b.com" = Except.ok false ∧
    CreateUser racedApp.db "a@b.com" "a" "$2a$10$secret1" =
      Except.error (DbError.uniqueViolation "users_email_key") ∧
    RegisterHandler racedApp 0 jsonPost = Response.error "db error" 500 ∧
    RegisterHandler racedApp 0 jsonPost ≠ Response.error "user already exists" 409 :=
  ⟨by decide, by decide, by decide, by decide, rfl, rfl, by decide, by decide⟩

/-- C8, amended. For every registration request that passes the method,
content-type, decoding, validation, existence and hashing steps, if
`CreateUser` fails, with a uniqueness conflict or with any other error,
`RegisterHandler` answers 500 "db error": it is not a success, and it is not
the 409 "user already exists", which only the existence check produces. -/
theorem RegisterHandler_create_error (app : App) (tick : Nat) (r : Request)
    (req : RegisterRequest) (hash : String) (e : DbError)
    (hm : r.Method = "POST")
    (hj : requireJSON app.lower r = true)
    (hp : (parseJSONStrict app.decRegister r).err = none)
    (hv : validateRegisterRequest app.lower
            ((parseJSONStrict app.decRegister r).dst.getD ⟨"", "", ""⟩) = (req, none))
    (hx : UserExistsByEmail app.db req.Email = Except.ok false)
    (hh : HashPassword app req.Password = Except.ok hash)
    (hc : CreateUser app.db req.Email req.Username hash = Except.error e) :
    RegisterHandler app tick r = Response.error "db error" 500 := by
  unfold RegisterHandler
  simp [hm, hj, hp, hv, hx, hh, hc]

/-- C8 amended, at the raced registration. -/
theorem RegisterHandler_create_error_witness :
    RegisterHandler racedApp 0 jsonPost = Response.error "db error" 500 :=
  RegisterHandler_create_error racedApp 0 jsonPost ⟨"a@b.com", "a", "secret1"⟩
    "$2a$10$secret1" (DbError.uniqueViolation "users_email_key")
    (by decide) (by decide) (by decide) (by decide) rfl rfl rfl

/-- C9, at the failing input: the lookup fails with a connection error, which
is not `sql.ErrNoRows`, and `LoginHandler` answers 401 "Invalid email or
password"; on the same store error `ProfileHandler` answers 500 "db error". -/
theorem LoginHandler_store_error_is_401 :
    GetUserByEmail racedApp.db "a@b.com" = Except.error (DbError.other "connection refused") ∧
    DbError.other "connection refused" ≠ DbError.ErrNoRows ∧
    LoginHandler racedApp 0 jsonPost = Response.error "Invalid email or password" 401 ∧
    ProfileHandler racedApp authedGet = Response.error "db error" 500 :=
  ⟨rfl, by decide, by decide, by decide⟩

/-- Every error of the lookup, whatever its kind, gives the 401 of
`LoginHandler`. -/
theorem LoginHandler_lookup_error (app : App) (tick : Nat) (r : Request)
    (req : LoginRequest) (e : DbError)
    (hm : r.Method = "POST")
    (hj : requireJSON app.lower r = true)
    (hp : (parseJSONStrict app.decLogin r).err = none)
    (hv : validateLoginRequest app.lower
            ((parseJSONStrict app.decLogin r).dst.getD ⟨"", ""⟩) = (req, none))
    (hl : GetUserByEmail app.db req.Email = Except.error e) :
    LoginHandler app tick r = Response.error "Invalid email or password" 401 := by
  unfold LoginHandler
  simp [hm, hj, hp, hv, hl]

/-! ## C10: validation of a registration -/

/-- C10, refuted as stated: the password "ééé" has 3 characters and 6 bytes, and
`validateRegisterRequest` returns nil for it. -/
theorem validateRegisterRequest_short_password :
    ("ééé" : String).length = 3 ∧ len "ééé" = 6 ∧
    (validateRegisterRequest Char.toLower ⟨"a@b.com", "a", "ééé"⟩).2 = none := by
  decide

/-- C10, amended: the length is counted in bytes. `validateRegisterRequest`
returns a non-nil error whenever the password is shorter than 6 bytes; and
whenever it returns nil, the email has been replaced by its lowercased, trimmed
form and is non-empty, the username has been trimmed and is non-empty, and the
password is unchanged, not blank, and at least 6 bytes long. -/
theorem validateRegisterRequest_spec (lower : Char → Char) (req : RegisterRequest) :
    (len req.Password < 6 → (validateRegisterRequest lower req).2 ≠ none) ∧
    ((validateRegisterRequest lower req).2 = none →
      (validateRegisterRequest lower req).1.Email = TrimSpace (ToLower lower req.Email) ∧
      (validateRegisterRequest lower req).1.Email ≠ "" ∧
      (validateRegisterRequest lower req).1.Username = TrimSpace req.Username ∧
      (validateRegisterRequest lower req).1.Username ≠ "" ∧
      (validateRegisterRequest lower req).1.Password = req.Password ∧
      TrimSpace req.Password ≠ "" ∧
      6 ≤ len req.Password) := by
  unfold validateRegisterRequest
  simp only []
  by_cases h1 : TrimSpace (ToLower lower req.Email) = ""
  · simp [h1]
  by_cases h2 : TrimSpace req.Username = ""
  · simp [h1, h2]
  by_cases h3 : TrimSpace req.Password = ""
  · simp [h1, h2, h3]
  by_cases h4 : len req.Password < 6
  · simp [h1, h2, h3, h4]
  · simp [h1, h2, h3, h4]
    omega

/-- C10 amended, at a request that needs normalising and at one whose password
is too short. -/
theorem validateRegisterRequest_spec_witness :
    (validateRegisterRequest Char.toLower ⟨" A@b.Com ", " bob", "secret1"⟩).1
      = ⟨"a@b.com", "bob", "secret1"⟩ ∧
    6 ≤ len "secret1" ∧
    (validateRegisterRequest Char.toLower ⟨"a@b.com", "a", "abcde"⟩).2 ≠ none :=
  ⟨by decide,
   ((validateRegisterRequest_spec Char.toLower ⟨" A@b.Com ", " bob", "secret1"⟩).2
      (by decide)).2.2.2.2.2.2,
   (validateRegisterRequest_spec Char.toLower ⟨"a@b.com", "a", "abcde"⟩).1 (by decide)⟩

/-! ## C6, continued: `toStr` on the rest of the `int64` range -/

theorem digitVal_ofNat (d : Nat) (h : d < 10) : digitVal (Char.ofNat (48 + d)) = some d := by
  interval_cases d <;> rfl

theorem drop_set_self (buf : List Nat) (j x : Nat) (h : j < buf.length) :
    (buf.set j x).drop j = x :: buf.drop (j + 1) := by
  have h2 : j < (buf.set j x).length := by simpa using h
  rw [List.drop_eq_getElem_cons h2, List.getElem_set_self, List.drop_set_of_lt _ _ (by omega)]

theorem toNat_div_mod_ten (v : Int) (h : 0 ≤ v) :
    v.toNat = (v / 10).toNat * 10 + (v % 10).toNat := by
  omega

theorem toStrLoop_spec (i : Nat) : ∀ (v : Int) (buf : List Nat), 0 ≤ v → v < 10 ^ i →
    i ≤ buf.length →
    ∃ j buf', toStrLoop i v buf = some (j, buf') ∧ j ≤ i ∧
      (v = 0 → j = i ∧ buf' = buf) ∧
      (0 < v → ∃ d rest, buf'.drop j = d :: rest ∧ 49 ≤ d ∧ d ≤ 57) ∧
      ∀ acc, parseDigits ((buf'.drop j).map Char.ofNat) acc =
        parseDigits ((buf.drop i).map Char.ofNat) (acc * 10 ^ (i - j) + v.toNat) := by
  induction i with
  | zero =>
    intro v buf h0 h1 _
    have hv : v = 0 := by simp at h1; omega
    subst hv
    refine ⟨0, buf, ?_, le_refl _, fun _ => ⟨rfl, rfl⟩, fun h => absurd h (by decide), ?_⟩
    · unfold toStrLoop; simp
    · intro acc; simp
  | succ j0 ih =>
    intro v buf h0 h1 hlen
    by_cases hv : v = 0
    · subst hv
      refine ⟨j0 + 1, buf, ?_, le_refl _, fun _ => ⟨rfl, rfl⟩, fun h => absurd h (by decide), ?_⟩
      · unfold toStrLoop; simp
      · intro acc; simp
    · have hpos : 0 < v := by omega
      have hdiv : v.tdiv 10 = v / 10 := Int.tdiv_eq_ediv h0 (by decide)
      have hmod : v.tmod 10 = v % 10 := Int.tmod_eq_emod h0 (by decide)
      have hbyte : ((48 + v.tmod 10) % 256).toNat = 48 + (v % 10).toNat := by
        rw [hmod]; omega
      have hd10 : (v % 10).toNat < 10 := by omega
      have h1' : v / 10 < 10 ^ j0 := by
        have : v < 10 ^ j0 * 10 := by rw [pow_succ] at h1; exact h1
        omega
      have hlen' : j0 ≤ (buf.set j0 (48 + (v % 10).toNat)).length := by simp; omega
      obtain ⟨j, buf', hl, hj, hz, hlead, hparse⟩ :=
        ih (v / 10) (buf.set j0 (48 + (v % 10).toNat)) (by omega) h1' hlen'
      have hds := drop_set_self buf j0 (48 + (v % 10).toNat) (by omega)
      refine ⟨j, buf', ?_, by omega, fun h => absurd h hv, ?_, ?_⟩
      · rw [toStrLoop]
        simp only [hpos, if_true, hdiv, hbyte]
        exact hl
      · intro _
        by_cases hq : v / 10 = 0
        · obtain ⟨hjj, hbb⟩ := hz hq
          subst hjj hbb
          refine ⟨_, _, hds, by omega, by omega⟩
        · exact hlead (by omega)
      · intro acc
        rw [hparse acc, hds]
        simp only [List.map_cons, parseDigits, digitVal_ofNat _ hd10]
        congr 1
        have e1 : j0 + 1 - j = (j0 - j) + 1 := by omega
        rw [e1, pow_succ]
        rw [toNat_div_mod_ten v h0]
        ring

theorem leadChar_ne_sign (d : Nat) (h1 : 49 ≤ d) (h2 : d ≤ 57) :
    Char.ofNat d ≠ '-' ∧ Char.ofNat d ≠ '+' := by
  interval_cases d <;> decide

theorem Atoi_of_digits (c : Char) (cs : List Char) (n : Nat)
    (hc1 : c ≠ '-') (hc2 : c ≠ '+')
    (hp : parseDigits (c :: cs) 0 = some n) (hr : (n : Int) < 2 ^ 63) :
    Atoi ⟨c :: cs⟩ = some (n : Int) := by
  unfold Atoi
  simp only [hc1, hc2, or_self, if_false, hp, decide_False, Bool.false_eq_true, intSize]
  norm_num at hr
  simp
  omega

theorem Atoi_of_neg_digits (c : Char) (cs : List Char) (n : Nat)
    (hp : parseDigits (c :: cs) 0 = some n) (hr : (n : Int) ≤ 2 ^ 63) :
    Atoi ⟨'-' :: c :: cs⟩ = some (-(n : Int)) := by
  unfold Atoi
  simp only [true_or, if_true, hp, decide_True, intSize]
  norm_num at hr
  simp
  omega

theorem toStrLoop_top (v : Int) (h0 : 0 < v) (h1 : v < 2 ^ 63) :
    ∃ j buf' d rest, toStrLoop 20 v (List.replicate 20 0) = some (j, buf') ∧
      (buf'.drop j).map Char.ofNat = Char.ofNat d :: rest ∧ 49 ≤ d ∧ d ≤ 57 ∧
      parseDigits (Char.ofNat d :: rest) 0 = some v.toNat := by
  have hlt : v < 10 ^ 20 := by norm_num at h1 ⊢; omega
  obtain ⟨j, buf', hl, _, _, hlead, hparse⟩ :=
    toStrLoop_spec 20 v (List.replicate 20 0) (by omega) hlt (by simp)
  obtain ⟨d, rest, hd, hd1, hd2⟩ := hlead h0
  refine ⟨j, buf', d, rest.map Char.ofNat, hl, by rw [hd]; rfl, hd1, hd2, ?_⟩
  have := hparse 0
  rw [hd] at this
  simpa [parseDigits] using this

/-- Outside the smallest `int64`, `toStr` gives the canonical decimal text: a
leading '-' exactly for negative values, then the digits of the magnitude
without a leading zero ("0" for zero), and `strconv.Atoi` parses it back to
the value. -/
theorem toStr_canonical (v : Int) (h1 : minInt64 < v) (h2 : v ≤ maxInt64) :
    ∃ ds : List Char,
      toStr v = some ⟨(if v < 0 then ['-'] else []) ++ ds⟩ ∧
      parseDigits ds 0 = some v.natAbs ∧
      (ds = ['0'] ∧ v = 0 ∨ ∃ d rest, ds = Char.ofNat d :: rest ∧ 49 ≤ d ∧ d ≤ 57) ∧
      Atoi ⟨(if v < 0 then ['-'] else []) ++ ds⟩ = some v := by
  unfold minInt64 at h1
  unfold maxInt64 at h2
  rcases lt_trichotomy v 0 with hneg | hz | hpos
  · have hw : wrapInt64 (-v) = -v := by
      unfold wrapInt64
      norm_num at h1 ⊢
      omega
    obtain ⟨j, buf', d, rest, hl, hd, hd1, hd2, hp⟩ :=
      toStrLoop_top (-v) (by omega) (by norm_num at h1 ⊢; omega)
    have habs : (-v).toNat = v.natAbs := by omega
    refine ⟨Char.ofNat d :: rest, ?_, by rw [hp, habs], Or.inr ⟨d, rest, rfl, hd1, hd2⟩, ?_⟩
    · unfold toStr
      have hv0 : v ≠ 0 := by omega
      simp only [hv0, if_false, hneg, if_true, hw, hl, stringOfBytes, hd]
      rfl
    · simp only [hneg, if_true, List.singleton_append]
      rw [Atoi_of_neg_digits (Char.ofNat d) rest _ hp (by norm_num at h1 ⊢; omega)]
      congr 1
      omega
  · subst hz
    exact ⟨['0'], by decide, by decide, Or.inl ⟨rfl, rfl⟩, by decide⟩
  · obtain ⟨j, buf', d, rest, hl, hd, hd1, hd2, hp⟩ :=
      toStrLoop_top v hpos (by norm_num at h2 ⊢; omega)
    have habs : v.toNat = v.natAbs := by omega
    have hnn : ¬ v < 0 := by omega
    obtain ⟨hs1, hs2⟩ := leadChar_ne_sign d hd1 hd2
    refine ⟨Char.ofNat d :: rest, ?_, by rw [hp, habs], Or.inr ⟨d, rest, rfl, hd1, hd2⟩, ?_⟩
    · unfold toStr
      have hv0 : v ≠ 0 := by omega
      simp only [hv0, if_false, hnn, hl, stringOfBytes, hd]
      rfl
    · simp only [hnn, if_false, List.nil_append]
      rw [Atoi_of_digits (Char.ofNat d) rest _ hs1 hs2 hp (by norm_num at h2 ⊢; omega)]
      congr 1
      omega

/-- The canonical text at -42. -/
theorem toStr_canonical_witness :
    ∃ ds : List Char,
      toStr (-42) = some ⟨(if (-42 : Int) < 0 then ['-'] else []) ++ ds⟩ ∧
      parseDigits ds 0 = some (-42 : Int).natAbs ∧
      (ds = ['0'] ∧ (-42 : Int) = 0 ∨ ∃ d rest, ds = Char.ofNat d :: rest ∧ 49 ≤ d ∧ d ≤ 57) ∧
      Atoi ⟨(if (-42 : Int) < 0 then ['-'] else []) ++ ds⟩ = some (-42) :=
  toStr_canonical (-42) (by decide) (by decide)

end Goprod
